import Mathlib

/-
Verification development for the better-mcps release tooling
(src/scripts/release.py, src/scripts/bump_level.py, src/scripts/tag_on_merge.py).

The Python scripts are shallowly embedded below: pure text processing is
modelled over `List Char` / `String`, subprocess interaction is modelled by
passing the command's result (`Except String String`: captured output on
success, the fatal `CalledProcessError` on non-zero exit) as an explicit
argument, and exceptions raised by the scripts become `Option` / `Except`
results.
-/

set_option maxRecDepth 4000

namespace BetterMcps

/-! ## Character and string primitives

`List Char` versions of the string operations the scripts use, written with
structural recursion so that every definition evaluates inside the kernel.
-/

/-- Split a character list at every occurrence of `sep`; mirrors Python
`str.split(sep)` for a one-character separator (so the empty string yields
a single empty chunk). -/
def splitOnChar (sep : Char) : List Char → List (List Char)
  | [] => [[]]
  | c :: rest =>
    match splitOnChar sep rest with
    | h :: t => if c = sep then [] :: h :: t else (c :: h) :: t
    | [] => if c = sep then [[], []] else [[c]]

/-- Drop leading whitespace; models a leading `\s*` in a single-line regex. -/
def wsDrop (cs : List Char) : List Char := cs.dropWhile Char.isWhitespace

/-- Strip whitespace from both ends; models Python `str.strip()`. -/
def trimChars (cs : List Char) : List Char :=
  ((cs.dropWhile Char.isWhitespace).reverse.dropWhile Char.isWhitespace).reverse

/-- Models Python `s.startswith(pre)`. -/
def startsWithStr (s pre : String) : Bool := pre.toList.isPrefixOf s.toList

/-- Does `needle` occur as a contiguous run inside the list?  Models the
Python substring test `needle in hay`. -/
def hasInfixL (needle : List Char) : List Char → Bool
  | [] => needle.isEmpty
  | c :: rest => needle.isPrefixOf (c :: rest) || hasInfixL needle rest

/-- Remove `key` as a literal prefix of `cs`, or fail. -/
def stripPrefixL : List Char → List Char → Option (List Char)
  | [], cs => some cs
  | _ :: _, [] => none
  | k :: ks, c :: cs => if c = k then stripPrefixL ks cs else none

/-- Remove `suf` as a literal suffix of `cs`, or fail. -/
def stripSuffixL (suf cs : List Char) : Option (List Char) :=
  (stripPrefixL suf.reverse cs.reverse).map List.reverse

/-- Models matching `"([^\x22]+)"` at the head of `cs`: an opening quote, a
non-empty run of non-quote characters (captured), and a closing quote.
Returns the capture and the remainder of the line. -/
def readQuoted (cs : List Char) : Option (List Char × List Char) :=
  match cs with
  | '"' :: rest =>
    match rest.dropWhile (fun c => !(c = '"')) with
    | '"' :: tail =>
      let content := rest.takeWhile (fun c => !(c = '"'))
      if content.isEmpty then none else some (content, tail)
    | _ => none
  | _ => none

/-- Join lines with newline separators (inverse of splitting on `'\n'`). -/
def joinLines : List String → String
  | [] => ""
  | [l] => l
  | l :: rest => l ++ "\n" ++ joinLines rest

/-- The lines of a text, splitting at `'\n'`.  Used to model a `re.MULTILINE`
search for a pattern anchored by `^ ... $` as a scan over lines. -/
def linesOf (txt : String) : List String :=
  (splitOnChar '\n' txt.toList).map (fun l => String.mk l)

/-- Models Python `str.splitlines()` on the stripped output of `run(...)`:
the empty string has no lines, and a stripped output carries no trailing
newline, so splitting at `'\n'` agrees with `splitlines`. -/
def splitlinesStr (s : String) : List String :=
  if s.toList.isEmpty then [] else linesOf s

/-! ## Semantic version arithmetic (release.py)

`SEMVER_RE = ^(?P<major>\d+)\.(?P<minor>\d+)\.(?P<patch>\d+)$`, used by
`parse_semver` / `bump_version` (release.py lines 48, 148-165).
-/

/-- Bump severities, `release.py`'s `SemverBump` literal type. -/
inductive SemverBump where
  | none
  | patch
  | minor
  | major
deriving DecidableEq, Repr

/-- The total order `none < patch < minor < major` from the spec, as a rank. -/
def SemverBump.ordVal : SemverBump → Nat
  | SemverBump.none => 0
  | SemverBump.patch => 1
  | SemverBump.minor => 2
  | SemverBump.major => 3

/-- The numeric value of a digit run, as Python `int()` reads it
(leading zeros allowed). -/
def digitsVal (cs : List Char) : Nat :=
  cs.foldl (fun acc c => acc * 10 + (c.toNat - 48)) 0

/-- A `\d+` group: a non-empty run of decimal digits. -/
def digitGroup (cs : List Char) : Bool := !cs.isEmpty && cs.all Char.isDigit

/-- Python's `$` (without MULTILINE) also matches just before a single
newline at the very end of the string, so `re.match` on `^...$` ignores one
trailing `'\n'`. -/
def dropFinalNewline (cs : List Char) : List Char :=
  match cs.reverse with
  | '\n' :: rest => rest.reverse
  | _ => cs

/-- The three groups captured by `SEMVER_RE`, when the whole string matches. -/
def semverGroups (v : String) : Option (List Char × List Char × List Char) :=
  match splitOnChar '.' (dropFinalNewline v.toList) with
  | [a, b, c] => if digitGroup a && digitGroup b && digitGroup c then some (a, b, c) else none
  | _ => none

/-- Does `v` match `SEMVER_RE` (under Python `re.match` semantics)? -/
def matchesSemverPattern (v : String) : Bool := (semverGroups v).isSome

/-- `parse_semver` (release.py lines 148-152): the three integer components,
or `none` for the raised `ValueError`. -/
def parse_semver (v : String) : Option (Nat × Nat × Nat) :=
  match semverGroups v with
  | some (a, b, c) => some (digitsVal a, digitsVal b, digitsVal c)
  | Option.none => none

/-- Serialize a version triple as `"MAJOR.MINOR.PATCH"`. -/
def renderVersion (ma mi pa : Nat) : String :=
  toString ma ++ "." ++ toString mi ++ "." ++ toString pa

/-- `bump_version` (release.py lines 155-165); `none` for the `ValueError`
raised on a malformed input. -/
def bump_version (v : String) (b : SemverBump) : Option String :=
  match parse_semver v with
  | Option.none => none
  | some (ma, mi, pa) =>
    match b with
    | SemverBump.none => some v
    | SemverBump.major => some (renderVersion (ma + 1) 0 0)
    | SemverBump.minor => some (renderVersion ma (mi + 1) 0)
    | SemverBump.patch => some (renderVersion ma mi (pa + 1))

/-! ## Commits and the two Conventional-Commit classifiers

`conventional_bump_from_commits` (release.py lines 99-145) and the
classification loop of bump_level.py `main` (lines 70-89).  A commit is
modelled by the three pieces of git metadata the scripts query: its subject
(`%s`), its body (`%b`), and the file paths it touched
(`git show --name-only`).
-/

/-- A commit as the scripts see it. -/
structure Commit where
  subject : String
  body : String
  touched : List String
deriving DecidableEq, Repr

/-- Did the commit touch a file under `<pkgName>/`?  Models
`any(p.startswith(f"{pkg.name}/") for p in touched if p)`
(release.py line 125, bump_level.py line 47). -/
def touchesPackage (pkgName : String) (c : Commit) : Bool :=
  c.touched.any (fun p => !p.toList.isEmpty && startsWithStr p (pkgName ++ "/"))

/-- ASCII letter, the `[a-zA-Z]` class. -/
def isAlphaAZ (c : Char) : Bool := ('a' ≤ c && c ≤ 'z') || ('A' ≤ c && c ≤ 'Z')

/-- Scan for `")!:"` starting at the current position; characters passed
over belong to the `.+` group and therefore may not be newlines. -/
def closeBangScan : List Char → Bool
  | ')' :: '!' :: ':' :: _ => true
  | c :: rest => if c = '\n' then false else closeBangScan rest
  | [] => false

/-- Models `\(.+\)!:` continuing after the opening parenthesis was consumed:
at least one non-newline character, then `")!:"`. -/
def dotPlusCloseBang : List Char → Bool
  | [] => false
  | c :: rest => if c = '\n' then false else closeBangScan rest

/-- Models `re.match(r"^[a-zA-Z]+\(.+\)!:|^[a-zA-Z]+!:", subject)`
(release.py line 132, bump_level.py line 77): a non-empty ASCII-letter run,
then either a parenthesized scope followed by `"!:"` or `"!:"` directly.
`re.match` only anchors at the start, so anything may follow. -/
def breakingSubject (subject : String) : Bool :=
  let cs := subject.toList
  !(cs.takeWhile isAlphaAZ).isEmpty &&
    (match cs.dropWhile isAlphaAZ with
     | '(' :: r => dotPlusCloseBang r
     | '!' :: ':' :: _ => true
     | _ => false)

/-- The breaking-change test: `"BREAKING CHANGE" in body or re.match(...)`. -/
def breaking (c : Commit) : Bool :=
  hasInfixL "BREAKING CHANGE".toList c.body.toList || breakingSubject c.subject

/-- release.py's `feat` update (line 137):
`bump = "minor" if bump in ("none", "patch", "minor") else bump`. -/
def featUpdate (b : SemverBump) : SemverBump :=
  match b with
  | SemverBump.none => SemverBump.minor
  | SemverBump.patch => SemverBump.minor
  | SemverBump.minor => SemverBump.minor
  | SemverBump.major => SemverBump.major

/-- The shared `fix` update (release.py lines 142-143, bump_level.py lines
86-87): `if bump == "none": bump = "patch"`. -/
def fixUpdate (b : SemverBump) : SemverBump :=
  if b = SemverBump.none then SemverBump.patch else b

/-- The classification loop of `conventional_bump_from_commits`
(release.py lines 120-145) over an explicit commit list, carrying the
running bump.  Note the `fix` rule: release.py checks only
`subject.startswith("fix")`, with no `perf` case. -/
def convAux (pkgName : String) : List Commit → SemverBump → SemverBump
  | [], bump => bump
  | c :: rest, bump =>
    if !touchesPackage pkgName c then convAux pkgName rest bump
    else if breaking c then SemverBump.major
    else if startsWithStr c.subject "feat" then convAux pkgName rest (featUpdate bump)
    else if startsWithStr c.subject "fix" then convAux pkgName rest (fixUpdate bump)
    else convAux pkgName rest bump

/-- `conventional_bump_from_commits` (release.py line 99): classify the
commits in the range, starting from a running bump of `none`. -/
def conventional_bump_from_commits (pkgName : String) (commits : List Commit) : SemverBump :=
  convAux pkgName commits SemverBump.none

/-- The classification loop of bump_level.py `main` (lines 70-89).  Here
`feat` sets the running bump to `minor` unconditionally, and the patch rule
is `subj.startswith("fix") or subj.startswith("perf")`. -/
def blAux (pkgName : String) : List Commit → SemverBump → SemverBump
  | [], bump => bump
  | c :: rest, bump =>
    if !touchesPackage pkgName c then blAux pkgName rest bump
    else if breaking c then SemverBump.major
    else if startsWithStr c.subject "feat" then blAux pkgName rest SemverBump.minor
    else if startsWithStr c.subject "fix" || startsWithStr c.subject "perf" then
      blAux pkgName rest (fixUpdate bump)
    else blAux pkgName rest bump

/-- The bump printed by bump_level.py `main` for a commit range. -/
def bump_level_main (pkgName : String) (commits : List Commit) : SemverBump :=
  blAux pkgName commits SemverBump.none

/-! ## Version-file reading and rewriting

`read_pyproject_version` / `write_pyproject_version` (release.py lines
174-192) and the identical `read_project_version` / `read_init_version`
of tag_on_merge.py (lines 37-61).  The patterns
`^version\s*=\s*"([^\x22]+)"\s*$` and `^__version__\s*=\s*"([^\x22]+)"\s*$`
with `re.MULTILINE` are modelled line by line: `^`/`$` anchor each line and,
within a line, `\s` and `[^\x22]` cannot meet a newline.
-/

/-- Does a single line match `^<key>\s*=\s*"([^\x22]+)"\s*$`?  Returns the
captured value. -/
def assignLineValue (key : String) (line : String) : Option String :=
  match stripPrefixL key.toList line.toList with
  | Option.none => none
  | some r0 =>
    match wsDrop r0 with
    | '=' :: r1 =>
      match readQuoted (wsDrop r1) with
      | some (content, tail) =>
        if (wsDrop tail).isEmpty then some (String.mk content) else none
      | Option.none => none
    | _ => none

/-- `read_pyproject_version` (release.py lines 174-179), identical to
tag_on_merge.py's `read_project_version`: `re.search` returns the first
match, so this yields the first matching line's capture, and `none` models
the raised `ValueError` when no line matches. -/
def read_pyproject_version (txt : String) : Option String :=
  (linesOf txt).findSome? (assignLineValue "version")

/-- `read_init_version` (tag_on_merge.py lines 56-61). -/
def read_init_version (txt : String) : Option String :=
  (linesOf txt).findSome? (assignLineValue "__version__")

/-- How many lines of `txt` match the version-assignment pattern; the
count `n` that `re.subn` reports in `write_pyproject_version`. -/
def versionMatchCount (txt : String) : Nat :=
  ((linesOf txt).filter (fun l => (assignLineValue "version" l).isSome)).length

/-- `write_pyproject_version` (release.py lines 182-192): substitute every
matching line, and fail (the raised `ValueError`, modelled as `none`)
unless exactly one line was replaced. -/
def write_pyproject_version (txt newVersion : String) : Option String :=
  let ls := linesOf txt
  let n := (ls.filter (fun l => (assignLineValue "version" l).isSome)).length
  if n = 1 then
    some (joinLines (ls.map (fun l =>
      if (assignLineValue "version" l).isSome then "version = \"" ++ newVersion ++ "\"" else l)))
  else none

/-! ## The subprocess layer of release.py

`run` (release.py lines 51-53) is `subprocess.check_output`: it raises
`CalledProcessError` on a non-zero exit.  A command's outcome is modelled
as `Except String String` — `ok` carries the stripped stdout, `error` the
propagated exception.
-/

/-- `latest_tag_for` (release.py lines 67-74).  The whole body, including
the `run` call, sits under `except Exception: return None`, so a failing
`git tag --list` subprocess is swallowed exactly like the `IndexError`
raised by `splitlines()[0]` on an empty tag list: both produce `None`. -/
def latest_tag_for (tagListResult : Except String String) : Option String :=
  match tagListResult with
  | Except.error _ => none
  | Except.ok out => (splitlinesStr out).head?

/-- `changed_files_since` (release.py lines 83-88) applied to the outcome
of its `git diff`/`git ls-files` query: no handler, so a subprocess failure
propagates. -/
def changed_files_since (diffResult : Except String String) : Except String (List String) :=
  match diffResult with
  | Except.error e => Except.error e
  | Except.ok out => Except.ok (splitlinesStr out)

/-- `package_changed`'s scan of the changed file list
(release.py lines 91-96). -/
def anyFileUnderPackage (pkgName : String) (files : List String) : Bool :=
  files.any (fun f => startsWithStr f (pkgName ++ "/"))

/-- `package_changed` (release.py lines 91-96) as a function of the diff
query's outcome: the underlying failure propagates untouched. -/
def package_changed (pkgName : String) (diffResult : Except String String) :
    Except String Bool :=
  match changed_files_since diffResult with
  | Except.error e => Except.error e
  | Except.ok files => Except.ok (anyFileUnderPackage pkgName files)

/-! ## The planning step of `cmd_tag_main` (release.py lines 238-251)

The per-package loop body of the plan phase, over the results of the
version-control queries for that package (its changed files since its
reference tag, the commits of its range, its descriptor text).
-/

/-- The query results `cmd_tag_main` gathers for one package. -/
structure PlanInput where
  name : String
  changedFiles : List String
  commits : List Commit
  pyprojectText : String
deriving Repr

/-- One iteration of the planning loop: skip unchanged packages, classify,
force `patch` when the bump is `none` but the package changed, and compute
the next version.  `Except.error` models the `ValueError`s propagating out
of `read_pyproject_version` / `bump_version`. -/
def planFor (p : PlanInput) : Except String (Option (String × String)) :=
  if !anyFileUnderPackage p.name p.changedFiles then Except.ok none
  else
    let b0 := conventional_bump_from_commits p.name p.commits
    let b := if b0 = SemverBump.none then SemverBump.patch else b0
    match read_pyproject_version p.pyprojectText with
    | Option.none => Except.error ("Could not find version in " ++ p.name ++ "/pyproject.toml")
    | some cur =>
      match bump_version cur b with
      | Option.none => Except.error ("Invalid semver: " ++ cur)
      | some nxt => Except.ok (some (p.name, nxt))

/-- The whole plan phase: the planned `(package, next_version)` pairs in
package order, or the first propagated error. -/
def planAll : List PlanInput → Except String (List (String × String))
  | [] => Except.ok []
  | p :: rest =>
    match planFor p with
    | Except.error e => Except.error e
    | Except.ok Option.none => planAll rest
    | Except.ok (some pl) =>
      match planAll rest with
      | Except.error e => Except.error e
      | Except.ok pls => Except.ok (pl :: pls)

/-! ## The reconcile-on-merge pass (tag_on_merge.py)

`main` (tag_on_merge.py lines 72-118).  The repository surrounding the run
is modelled by `MergeEnv`: the content of each package's
`<pkg>/pyproject.toml` if that file exists in the working tree, and the
content of the `src/*/__init__.py` selected by `find_init_with_version`
(the first glob result whose text contains `"__version__"`), if any.  The
tag namespace is threaded explicitly: `git rev-parse <tag>` succeeds
exactly when the tag is present, and `git tag -a` adds it.  `run` failures
and `SystemExit` both abort the run; an abort carries the message and the
tags already created, matching the fail-partial semantics (§5 of the spec):
tags pushed before the abort persist.
-/

/-- The read-only file contents `main` consults for a package name. -/
structure MergeEnv where
  pyproject : String → Option String
  initFile : String → Option String

/-- tag_on_merge.py `read_project_version` (lines 37-42): same pattern as
release.py's `read_pyproject_version`. -/
def read_project_version (txt : String) : Option String :=
  read_pyproject_version txt

/-- The tag name derived for a package at a version
(tag_on_merge.py line 109). -/
def mergeTagName (pkg version : String) : String :=
  "better-mcps-" ++ pkg ++ "-v" ++ version

/-- The `__init__` consistency check (tag_on_merge.py lines 101-107):
read `__version__` if an init file was found, and fail on a missing
assignment or on a mismatch with the descriptor's version. -/
def checkInit (env : MergeEnv) (pkg version : String) : Except String Unit :=
  match env.initFile pkg with
  | Option.none => Except.ok ()
  | some itxt =>
    match read_init_version itxt with
    | Option.none => Except.error ("Could not find __version__ in " ++ pkg)
    | some iv =>
      if iv = version then Except.ok ()
      else Except.error ("Version mismatch for " ++ pkg ++ ": pyproject=" ++ version
        ++ " init=" ++ iv)

/-- One iteration of `main`'s package loop (tag_on_merge.py lines 94-116):
skip a package whose descriptor is absent from the working tree, read and
cross-check its version, then create the derived tag unless it already
exists.  Returns the updated tag namespace and the log of tags created
(each created tag is also pushed). -/
def pkgStep (env : MergeEnv) (tags created : List String) (pkg : String) :
    Except String (List String × List String) :=
  match env.pyproject pkg with
  | Option.none => Except.ok (tags, created)
  | some txt =>
    match read_project_version txt with
    | Option.none => Except.error ("Could not find version in " ++ pkg ++ "/pyproject.toml")
    | some version =>
      match checkInit env pkg version with
      | Except.error e => Except.error e
      | Except.ok _ =>
        let tag := mergeTagName pkg version
        if tag ∈ tags then Except.ok (tags, created)
        else Except.ok (tag :: tags, created ++ [tag])

/-- `main`'s loop over the sorted package names.  An error aborts the run,
carrying the tags created before the abort. -/
def mainLoop (env : MergeEnv) :
    List String → List String → List String →
    Except (String × List String) (List String × List String)
  | tags, created, [] => Except.ok (tags, created)
  | tags, created, pkg :: rest =>
    match pkgStep env tags created pkg with
    | Except.error e => Except.error (e, created)
    | Except.ok (tags2, created2) => mainLoop env tags2 created2 rest

/-- Does a stripped diff line match `^([^/]+)/pyproject\.toml$`
(tag_on_merge.py line 86)?  Captures the package name. -/
def pyprojectLinePkg (line : String) : Option String :=
  let t := trimChars line.toList
  match stripSuffixL "/pyproject.toml".toList t with
  | Option.none => none
  | some pkgCs =>
    if !pkgCs.isEmpty && !pkgCs.contains '/' then some (String.mk pkgCs) else none

/-- Lexicographic order on the character codes, the order `sorted` uses on
these ASCII package names. -/
def lexLtL : List Char → List Char → Bool
  | [], [] => false
  | [], _ :: _ => true
  | _ :: _, [] => false
  | a :: as_, b :: bs =>
    if a.toNat < b.toNat then true
    else if b.toNat < a.toNat then false
    else lexLtL as_ bs

/-- Insertion into a sorted list of strings. -/
def insertStr (x : String) : List String → List String
  | [] => [x]
  | y :: ys => if lexLtL x.toList y.toList then x :: y :: ys else y :: insertStr x ys

/-- Insertion sort of strings. -/
def sortStrs : List String → List String
  | [] => []
  | x :: xs => insertStr x (sortStrs xs)

/-- Deduplication modelling the `set` the package names are collected in. -/
def dedupStrs : List String → List String
  | [] => []
  | x :: xs => if xs.contains x then dedupStrs xs else x :: dedupStrs xs

/-- The sorted package set extracted from the diff output
(tag_on_merge.py lines 84-88 and 94). -/
def pkgsFromDiff (diffOut : String) : List String :=
  sortStrs (dedupStrs ((splitlinesStr diffOut).filterMap pyprojectLinePkg))

/-- tag_on_merge.py `main` (lines 72-118) for a before/after pair whose
`git diff --name-only` output is `diffOut` (the empty string when
`before == after`), against file contents `env` and tag namespace `tags`. -/
def tag_on_merge_main (before after diffOut : String) (env : MergeEnv)
    (tags : List String) :
    Except (String × List String) (List String × List String) :=
  let out := if before = after then "" else diffOut
  mainLoop env tags [] (pkgsFromDiff out)

/-! ## Concrete inputs used by witnesses and counterexamples -/

/-- A `perf`-subject commit touching the `filesystem` package. -/
def perfCommit : Commit :=
  { subject := "perf: cache results", body := "", touched := ["filesystem/a.py"] }

/-- A `fix`-subject commit touching the `filesystem` package. -/
def fixCommit : Commit :=
  { subject := "fix: y", body := "", touched := ["filesystem/a.py"] }

/-- A `feat`-subject commit touching the `filesystem` package. -/
def featCommit : Commit :=
  { subject := "feat: add x", body := "", touched := ["filesystem/b.py"] }

/-- A breaking commit: the `feat!:` subject marker, touching the package. -/
def bangCommit : Commit :=
  { subject := "feat!: remove old api", body := "", touched := ["filesystem/c.py"] }

/-- A commit touching the package whose subject matches no rule. -/
def choreCommit : Commit :=
  { subject := "chore: tidy", body := "", touched := ["filesystem/x.py"] }

/-- A commit that does not touch the `filesystem` package. -/
def otherCommit : Commit :=
  { subject := "feat: elsewhere", body := "", touched := ["docs/readme.md"] }

/-- A commit with the literal `"BREAKING CHANGE"` in its body, touching
the package. -/
def breakingBodyCommit : Commit :=
  { subject := "chore: drop helper", body := "BREAKING CHANGE: helper removed",
    touched := ["filesystem/z.py"] }

/-- A descriptor whose `version` and `__version__` agree. -/
def envConsistent : MergeEnv :=
  { pyproject := fun p => if p = "filesystem" then some "version = \"0.2.1\"" else none,
    initFile := fun p => if p = "filesystem" then some "__version__ = \"0.2.1\"" else none }

/-- A descriptor at `"1.2.0"` with a secondary file declaring `"1.1.9"`. -/
def envMismatch : MergeEnv :=
  { pyproject := fun p => if p = "filesystem" then some "version = \"1.2.0\"" else none,
    initFile := fun p => if p = "filesystem" then some "__version__ = \"1.1.9\"" else none }

/-- An environment in which no package descriptor exists. -/
def envEmpty : MergeEnv :=
  { pyproject := fun _ => none, initFile := fun _ => none }

/-- Plan input for a changed package whose only commit matches no rule. -/
def planUnclassified : PlanInput :=
  { name := "filesystem", changedFiles := ["filesystem/x.py"],
    commits := [choreCommit], pyprojectText := "version = \"0.3.0\"" }

/-- A descriptor text with two `version` assignment lines. -/
def twoVersionText : String := "version = \"1.0.0\"\nversion = \"2.0.0\""

/-! # Theorems

Helper lemmas about the classifier loops, then one theorem (plus witness or
counterexample) per specification claim.
-/

/-- `featUpdate` never lowers the running bump. -/
theorem featUpdate_ord_le (b : SemverBump) : b.ordVal ≤ (featUpdate b).ordVal := by
  cases b <;> decide

/-- `fixUpdate` never lowers the running bump. -/
theorem fixUpdate_ord_le (b : SemverBump) : b.ordVal ≤ (fixUpdate b).ordVal := by
  cases b <;> decide

/-- Bump ranks are bounded by `major`'s rank. -/
theorem ordVal_le_three (b : SemverBump) : b.ordVal ≤ 3 := by
  cases b <;> decide

/-- A bump of rank at least `minor`'s that is not `major` is `minor`. -/
theorem eq_minor_of_ord (b : SemverBump) (h2 : 2 ≤ b.ordVal) (hm : b ≠ SemverBump.major) :
    b = SemverBump.minor := by
  cases b <;> first | rfl | exact absurd rfl hm | exact absurd h2 (by decide)

/-- release.py's classification loop is a monotone reduction: the result
never ranks below the running bump it starts from. -/
theorem convAux_ord_le (pkg : String) (l : List Commit) :
    ∀ b : SemverBump, b.ordVal ≤ (convAux pkg l b).ordVal := by
  induction l with
  | nil => intro b; simp [convAux]
  | cons c rest ih =>
    intro b
    cases hT : touchesPackage pkg c with
    | false => simpa [convAux, hT] using ih b
    | true =>
      cases hB : breaking c with
      | true => simpa [convAux, hT, hB] using ordVal_le_three b
      | false =>
        cases hF : startsWithStr c.subject "feat" with
        | true =>
          simpa [convAux, hT, hB, hF] using le_trans (featUpdate_ord_le b) (ih (featUpdate b))
        | false =>
          cases hX : startsWithStr c.subject "fix" with
          | true =>
            simpa [convAux, hT, hB, hF, hX] using
              le_trans (fixUpdate_ord_le b) (ih (fixUpdate b))
          | false => simpa [convAux, hT, hB, hF, hX] using ih b

/-- If any commit in the range touches the package and is breaking,
release.py's loop returns `major` from every running bump. -/
theorem convAux_breaking (pkg : String) :
    ∀ l : List Commit,
      (∃ c ∈ l, touchesPackage pkg c = true ∧ breaking c = true) →
      ∀ b, convAux pkg l b = SemverBump.major := by
  intro l
  induction l with
  | nil => rintro ⟨c, hc, -⟩; cases hc
  | cons a rest ih =>
    rintro ⟨c, hc, hTc, hBc⟩ b
    rcases List.mem_cons.mp hc with rfl | hmem
    · simp [convAux, hTc, hBc]
    · cases hT : touchesPackage pkg a with
      | false => simpa [convAux, hT] using ih ⟨c, hmem, hTc, hBc⟩ b
      | true =>
        cases hB : breaking a with
        | true => simp [convAux, hT, hB]
        | false =>
          cases hF : startsWithStr a.subject "feat" with
          | true => simpa [convAux, hT, hB, hF] using ih ⟨c, hmem, hTc, hBc⟩ (featUpdate b)
          | false =>
            cases hX : startsWithStr a.subject "fix" with
            | true => simpa [convAux, hT, hB, hF, hX] using ih ⟨c, hmem, hTc, hBc⟩ (fixUpdate b)
            | false => simpa [convAux, hT, hB, hF, hX] using ih ⟨c, hmem, hTc, hBc⟩ b

/-- Without a breaking commit touching the package, release.py's loop never
produces `major` from a non-`major` running bump. -/
theorem convAux_no_breaking (pkg : String) :
    ∀ l : List Commit,
      (∀ c ∈ l, touchesPackage pkg c = true → breaking c = false) →
      ∀ b, b ≠ SemverBump.major → convAux pkg l b ≠ SemverBump.major := by
  intro l
  induction l with
  | nil => intro _ b hb; simpa [convAux] using hb
  | cons a rest ih =>
    intro h b hb
    have hrest : ∀ c ∈ rest, touchesPackage pkg c = true → breaking c = false :=
      fun c hc => h c (List.mem_cons_of_mem a hc)
    cases hT : touchesPackage pkg a with
    | false => simpa [convAux, hT] using ih hrest b hb
    | true =>
      have hB : breaking a = false := h a (List.mem_cons_self a rest) hT
      cases hF : startsWithStr a.subject "feat" with
      | true =>
        have : featUpdate b ≠ SemverBump.major := by
          cases b
          · decide
          · decide
          · decide
          · exact absurd rfl hb
        simpa [convAux, hT, hB, hF] using ih hrest (featUpdate b) this
      | false =>
        cases hX : startsWithStr a.subject "fix" with
        | true =>
          have : fixUpdate b ≠ SemverBump.major := by
            cases b
            · decide
            · decide
            · decide
            · exact absurd rfl hb
          simpa [convAux, hT, hB, hF, hX] using ih hrest (fixUpdate b) this
        | false => simpa [convAux, hT, hB, hF, hX] using ih hrest b hb

/-- A non-breaking `feat` commit touching the package forces release.py's
loop to rank at least `minor`. -/
theorem convAux_feat_lower (pkg : String) :
    ∀ l : List Commit,
      (∃ c ∈ l, touchesPackage pkg c = true ∧ breaking c = false ∧
        startsWithStr c.subject "feat" = true) →
      ∀ b, 2 ≤ (convAux pkg l b).ordVal := by
  intro l
  induction l with
  | nil => rintro ⟨c, hc, -⟩; cases hc
  | cons a rest ih =>
    rintro ⟨c, hc, hTc, hBc, hFc⟩ b
    rcases List.mem_cons.mp hc with rfl | hmem
    · have h2 : 2 ≤ (featUpdate b).ordVal := by cases b <;> decide
      simpa [convAux, hTc, hBc, hFc] using le_trans h2 (convAux_ord_le pkg rest (featUpdate b))
    · cases hT : touchesPackage pkg a with
      | false => simpa [convAux, hT] using ih ⟨c, hmem, hTc, hBc, hFc⟩ b
      | true =>
        cases hB : breaking a with
        | true => simp [convAux, hT, hB, SemverBump.ordVal]
        | false =>
          cases hF : startsWithStr a.subject "feat" with
          | true =>
            simpa [convAux, hT, hB, hF] using ih ⟨c, hmem, hTc, hBc, hFc⟩ (featUpdate b)
          | false =>
            cases hX : startsWithStr a.subject "fix" with
            | true =>
              simpa [convAux, hT, hB, hF, hX] using ih ⟨c, hmem, hTc, hBc, hFc⟩ (fixUpdate b)
            | false => simpa [convAux, hT, hB, hF, hX] using ih ⟨c, hmem, hTc, hBc, hFc⟩ b

/-- When no touching commit is breaking or `feat`, release.py's loop leaves
a running bump of `patch` unchanged. -/
theorem convAux_patch_stuck (pkg : String) :
    ∀ l : List Commit,
      (∀ c ∈ l, touchesPackage pkg c = true →
        breaking c = false ∧ startsWithStr c.subject "feat" = false) →
      convAux pkg l SemverBump.patch = SemverBump.patch := by
  intro l
  induction l with
  | nil => intro _; simp [convAux]
  | cons a rest ih =>
    intro h
    have hrest : ∀ c ∈ rest, touchesPackage pkg c = true →
        breaking c = false ∧ startsWithStr c.subject "feat" = false :=
      fun c hc => h c (List.mem_cons_of_mem a hc)
    cases hT : touchesPackage pkg a with
    | false => simpa [convAux, hT] using ih hrest
    | true =>
      obtain ⟨hB, hF⟩ := h a (List.mem_cons_self a rest) hT
      cases hX : startsWithStr a.subject "fix" with
      | true => simpa [convAux, hT, hB, hF, hX, fixUpdate] using ih hrest
      | false => simpa [convAux, hT, hB, hF, hX] using ih hrest

/-- When no touching commit is breaking or `feat`, release.py's loop from
`none` yields `patch` exactly when some touching commit has a `fix`
subject — `perf` subjects are ignored by release.py. -/
theorem convAux_fix_only (pkg : String) :
    ∀ l : List Commit,
      (∀ c ∈ l, touchesPackage pkg c = true →
        breaking c = false ∧ startsWithStr c.subject "feat" = false) →
      convAux pkg l SemverBump.none =
        (if l.any (fun c => touchesPackage pkg c && startsWithStr c.subject "fix")
         then SemverBump.patch else SemverBump.none) := by
  intro l
  induction l with
  | nil => intro _; simp [convAux]
  | cons a rest ih =>
    intro h
    have hrest : ∀ c ∈ rest, touchesPackage pkg c = true →
        breaking c = false ∧ startsWithStr c.subject "feat" = false :=
      fun c hc => h c (List.mem_cons_of_mem a hc)
    cases hT : touchesPackage pkg a with
    | false => simpa [convAux, hT, List.any_cons] using ih hrest
    | true =>
      obtain ⟨hB, hF⟩ := h a (List.mem_cons_self a rest) hT
      cases hX : startsWithStr a.subject "fix" with
      | true =>
        simpa [convAux, hT, hB, hF, hX, fixUpdate, List.any_cons] using
          convAux_patch_stuck pkg rest hrest
      | false => simpa [convAux, hT, hB, hF, hX, List.any_cons] using ih hrest

/-- bump_level.py's loop started at `minor` never ranks below `minor`. -/
theorem blAux_minor_le (pkg : String) :
    ∀ l : List Commit, 2 ≤ (blAux pkg l SemverBump.minor).ordVal := by
  intro l
  induction l with
  | nil => simp [blAux, SemverBump.ordVal]
  | cons a rest ih =>
    cases hT : touchesPackage pkg a with
    | false => simpa [blAux, hT] using ih
    | true =>
      cases hB : breaking a with
      | true => simp [blAux, hT, hB, SemverBump.ordVal]
      | false =>
        cases hF : startsWithStr a.subject "feat" with
        | true => simpa [blAux, hT, hB, hF] using ih
        | false =>
          cases hP : (startsWithStr a.subject "fix" || startsWithStr a.subject "perf") with
          | true => simpa [blAux, hT, hB, hF, hP, fixUpdate] using ih
          | false => simpa [blAux, hT, hB, hF, hP] using ih

/-- If any commit in the range touches the package and is breaking,
bump_level.py's loop returns `major` from every running bump. -/
theorem blAux_breaking (pkg : String) :
    ∀ l : List Commit,
      (∃ c ∈ l, touchesPackage pkg c = true ∧ breaking c = true) →
      ∀ b, blAux pkg l b = SemverBump.major := by
  intro l
  induction l with
  | nil => rintro ⟨c, hc, -⟩; cases hc
  | cons a rest ih =>
    rintro ⟨c, hc, hTc, hBc⟩ b
    rcases List.mem_cons.mp hc with rfl | hmem
    · simp [blAux, hTc, hBc]
    · cases hT : touchesPackage pkg a with
      | false => simpa [blAux, hT] using ih ⟨c, hmem, hTc, hBc⟩ b
      | true =>
        cases hB : breaking a with
        | true => simp [blAux, hT, hB]
        | false =>
          cases hF : startsWithStr a.subject "feat" with
          | true => simpa [blAux, hT, hB, hF] using ih ⟨c, hmem, hTc, hBc⟩ SemverBump.minor
          | false =>
            cases hP : (startsWithStr a.subject "fix" || startsWithStr a.subject "perf") with
            | true => simpa [blAux, hT, hB, hF, hP] using ih ⟨c, hmem, hTc, hBc⟩ (fixUpdate b)
            | false => simpa [blAux, hT, hB, hF, hP] using ih ⟨c, hmem, hTc, hBc⟩ b

/-- Without a breaking commit touching the package, bump_level.py's loop
never produces `major` from a non-`major` running bump. -/
theorem blAux_no_breaking (pkg : String) :
    ∀ l : List Commit,
      (∀ c ∈ l, touchesPackage pkg c = true → breaking c = false) →
      ∀ b, b ≠ SemverBump.major → blAux pkg l b ≠ SemverBump.major := by
  intro l
  induction l with
  | nil => intro _ b hb; simpa [blAux] using hb
  | cons a rest ih =>
    intro h b hb
    have hrest : ∀ c ∈ rest, touchesPackage pkg c = true → breaking c = false :=
      fun c hc => h c (List.mem_cons_of_mem a hc)
    cases hT : touchesPackage pkg a with
    | false => simpa [blAux, hT] using ih hrest b hb
    | true =>
      have hB : breaking a = false := h a (List.mem_cons_self a rest) hT
      cases hF : startsWithStr a.subject "feat" with
      | true =>
        simpa [blAux, hT, hB, hF] using ih hrest SemverBump.minor (by decide)
      | false =>
        cases hP : (startsWithStr a.subject "fix" || startsWithStr a.subject "perf") with
        | true =>
          have : fixUpdate b ≠ SemverBump.major := by
            cases b
            · decide
            · decide
            · decide
            · exact absurd rfl hb
          simpa [blAux, hT, hB, hF, hP] using ih hrest (fixUpdate b) this
        | false => simpa [blAux, hT, hB, hF, hP] using ih hrest b hb

/-- A non-breaking `feat` commit touching the package forces bump_level.py's
loop to rank at least `minor`. -/
theorem blAux_feat_lower (pkg : String) :
    ∀ l : List Commit,
      (∃ c ∈ l, touchesPackage pkg c = true ∧ breaking c = false ∧
        startsWithStr c.subject "feat" = true) →
      ∀ b, 2 ≤ (blAux pkg l b).ordVal := by
  intro l
  induction l with
  | nil => rintro ⟨c, hc, -⟩; cases hc
  | cons a rest ih =>
    rintro ⟨c, hc, hTc, hBc, hFc⟩ b
    rcases List.mem_cons.mp hc with rfl | hmem
    · simpa [blAux, hTc, hBc, hFc] using blAux_minor_le pkg rest
    · cases hT : touchesPackage pkg a with
      | false => simpa [blAux, hT] using ih ⟨c, hmem, hTc, hBc, hFc⟩ b
      | true =>
        cases hB : breaking a with
        | true => simp [blAux, hT, hB, SemverBump.ordVal]
        | false =>
          cases hF : startsWithStr a.subject "feat" with
          | true => simpa [blAux, hT, hB, hF] using blAux_minor_le pkg rest
          | false =>
            cases hP : (startsWithStr a.subject "fix" || startsWithStr a.subject "perf") with
            | true => simpa [blAux, hT, hB, hF, hP] using ih ⟨c, hmem, hTc, hBc, hFc⟩ (fixUpdate b)
            | false => simpa [blAux, hT, hB, hF, hP] using ih ⟨c, hmem, hTc, hBc, hFc⟩ b

/-- When no touching commit is breaking or `feat`, bump_level.py's loop
leaves a running bump of `patch` unchanged. -/
theorem blAux_patch_stuck (pkg : String) :
    ∀ l : List Commit,
      (∀ c ∈ l, touchesPackage pkg c = true →
        breaking c = false ∧ startsWithStr c.subject "feat" = false) →
      blAux pkg l SemverBump.patch = SemverBump.patch := by
  intro l
  induction l with
  | nil => intro _; simp [blAux]
  | cons a rest ih =>
    intro h
    have hrest : ∀ c ∈ rest, touchesPackage pkg c = true →
        breaking c = false ∧ startsWithStr c.subject "feat" = false :=
      fun c hc => h c (List.mem_cons_of_mem a hc)
    cases hT : touchesPackage pkg a with
    | false => simpa [blAux, hT] using ih hrest
    | true =>
      obtain ⟨hB, hF⟩ := h a (List.mem_cons_self a rest) hT
      cases hP : (startsWithStr a.subject "fix" || startsWithStr a.subject "perf") with
      | true => simpa [blAux, hT, hB, hF, hP, fixUpdate] using ih hrest
      | false => simpa [blAux, hT, hB, hF, hP] using ih hrest

/-- When no touching commit is breaking or `feat`, bump_level.py's loop from
`none` yields `patch` exactly when some touching commit has a `fix` or
`perf` subject. -/
theorem blAux_fix_perf_only (pkg : String) :
    ∀ l : List Commit,
      (∀ c ∈ l, touchesPackage pkg c = true →
        breaking c = false ∧ startsWithStr c.subject "feat" = false) →
      blAux pkg l SemverBump.none =
        (if l.any (fun c => touchesPackage pkg c &&
            (startsWithStr c.subject "fix" || startsWithStr c.subject "perf"))
         then SemverBump.patch else SemverBump.none) := by
  intro l
  induction l with
  | nil => intro _; simp [blAux]
  | cons a rest ih =>
    intro h
    have hrest : ∀ c ∈ rest, touchesPackage pkg c = true →
        breaking c = false ∧ startsWithStr c.subject "feat" = false :=
      fun c hc => h c (List.mem_cons_of_mem a hc)
    cases hT : touchesPackage pkg a with
    | false => simpa [blAux, hT, List.any_cons] using ih hrest
    | true =>
      obtain ⟨hB, hF⟩ := h a (List.mem_cons_self a rest) hT
      cases hP : (startsWithStr a.subject "fix" || startsWithStr a.subject "perf") with
      | true =>
        simpa [blAux, hT, hB, hF, hP, fixUpdate, List.any_cons] using
          blAux_patch_stuck pkg rest hrest
      | false => simpa [blAux, hT, hB, hF, hP, List.any_cons] using ih hrest

/-- C1: the claim as stated is false for release.py.  A range whose only
qualifying commit has subject `"perf: cache results"` classifies as `none`
under `conventional_bump_from_commits` (release.py has no `perf` rule),
while bump_level.py classifies the same range as `patch` — so the shared
`fix`-or-`perf` reading does not hold of release.py's classifier. -/
theorem c1_perf_counterexample :
    conventional_bump_from_commits "filesystem" [perfCommit] = SemverBump.none ∧
    bump_level_main "filesystem" [perfCommit] = SemverBump.patch ∧
    SemverBump.none ≠ SemverBump.patch := by
  refine ⟨by decide, by decide, by decide⟩

/-- C1 (amended): among commits touching the package, none of which is
breaking or `feat`-subject: bump_level.py raises the running bump to
`patch` for a `fix` or `perf` subject, so its classification is `patch`;
release.py raises to `patch` only for a `fix` subject, and a range whose
touching commits include no `fix` subject (e.g. only `perf`) classifies
as `none`. -/
theorem c1_fix_perf_rule (pkg : String) (l : List Commit)
    (hall : ∀ c ∈ l, touchesPackage pkg c = true →
      breaking c = false ∧ startsWithStr c.subject "feat" = false) :
    ((∃ c ∈ l, touchesPackage pkg c = true ∧
        (startsWithStr c.subject "fix" = true ∨ startsWithStr c.subject "perf" = true)) →
      bump_level_main pkg l = SemverBump.patch) ∧
    ((∃ c ∈ l, touchesPackage pkg c = true ∧ startsWithStr c.subject "fix" = true) →
      conventional_bump_from_commits pkg l = SemverBump.patch) ∧
    ((∀ c ∈ l, touchesPackage pkg c = true → startsWithStr c.subject "fix" = false) →
      conventional_bump_from_commits pkg l = SemverBump.none) := by
  refine ⟨?_, ?_, ?_⟩
  · rintro ⟨c, hc, hTc, hfp⟩
    have hany : l.any (fun c => touchesPackage pkg c &&
        (startsWithStr c.subject "fix" || startsWithStr c.subject "perf")) = true := by
      refine List.any_eq_true.mpr ⟨c, hc, ?_⟩
      rcases hfp with hf | hp
      · simp [hTc, hf]
      · simp [hTc, hp]
    simpa [bump_level_main, hany] using blAux_fix_perf_only pkg l hall
  · rintro ⟨c, hc, hTc, hf⟩
    have hany : l.any (fun c => touchesPackage pkg c &&
        startsWithStr c.subject "fix") = true :=
      List.any_eq_true.mpr ⟨c, hc, by simp [hTc, hf]⟩
    simpa [conventional_bump_from_commits, hany] using convAux_fix_only pkg l hall
  · intro hnofix
    have hany : l.any (fun c => touchesPackage pkg c &&
        startsWithStr c.subject "fix") = false := by
      rw [List.any_eq_false]
      intro c hc
      cases hT : touchesPackage pkg c with
      | false => simp
      | true => simp [hnofix c hc hT]
    simpa [conventional_bump_from_commits, hany] using convAux_fix_only pkg l hall

/-- C1 witness: the amended rule evaluated at the `perf`-only range. -/
theorem c1_witness :
    bump_level_main "filesystem" [perfCommit] = SemverBump.patch ∧
    conventional_bump_from_commits "filesystem" [perfCommit] = SemverBump.none :=
  ⟨(c1_fix_perf_rule "filesystem" [perfCommit] (by decide)).1 (by decide),
   (c1_fix_perf_rule "filesystem" [perfCommit] (by decide)).2.2 (by decide)⟩

/-- C2: if any commit in the range touches the package and carries a
breaking marker (the literal `"BREAKING CHANGE"` in its body, or the
`type(scope)!:` / `type!:` subject form), both classifiers return `major`,
regardless of every other commit in the range. -/
theorem c2_breaking_always_major (pkg : String) (l : List Commit)
    (h : ∃ c ∈ l, touchesPackage pkg c = true ∧ breaking c = true) :
    conventional_bump_from_commits pkg l = SemverBump.major ∧
    bump_level_main pkg l = SemverBump.major :=
  ⟨convAux_breaking pkg l h SemverBump.none, blAux_breaking pkg l h SemverBump.none⟩

/-- C2 witness: a breaking-body commit buried between unrelated, `fix`,
and `feat` commits still classifies the range as `major`. -/
theorem c2_witness :
    conventional_bump_from_commits "filesystem"
      [fixCommit, breakingBodyCommit, featCommit, otherCommit] = SemverBump.major ∧
    bump_level_main "filesystem"
      [fixCommit, breakingBodyCommit, featCommit, otherCommit] = SemverBump.major :=
  c2_breaking_always_major "filesystem" _ (by decide)

/-- C3: a range whose touching commits are non-breaking `feat` and `fix`
commits, with at least one `feat`, classifies as `minor` — never `patch` —
under both classifiers, in any order; moreover both classification loops
never rank below `minor` once the running bump has reached `minor`. -/
theorem c3_feat_precedence (pkg : String) (l : List Commit)
    (hall : ∀ c ∈ l, touchesPackage pkg c = true →
      breaking c = false ∧
        (startsWithStr c.subject "feat" = true ∨ startsWithStr c.subject "fix" = true))
    (hex : ∃ c ∈ l, touchesPackage pkg c = true ∧ startsWithStr c.subject "feat" = true) :
    (conventional_bump_from_commits pkg l = SemverBump.minor ∧
      bump_level_main pkg l = SemverBump.minor) ∧
    (∀ l2 : List Commit,
      2 ≤ (convAux pkg l2 SemverBump.minor).ordVal ∧
      2 ≤ (blAux pkg l2 SemverBump.minor).ordVal) := by
  have hNoBreak : ∀ c ∈ l, touchesPackage pkg c = true → breaking c = false :=
    fun c hc ht => (hall c hc ht).1
  have hex' : ∃ c ∈ l, touchesPackage pkg c = true ∧ breaking c = false ∧
      startsWithStr c.subject "feat" = true := by
    rcases hex with ⟨c, hc, hTc, hFc⟩
    exact ⟨c, hc, hTc, (hall c hc hTc).1, hFc⟩
  refine ⟨⟨?_, ?_⟩, fun l2 => ⟨convAux_ord_le pkg l2 SemverBump.minor, blAux_minor_le pkg l2⟩⟩
  · exact eq_minor_of_ord _ (convAux_feat_lower pkg l hex' SemverBump.none)
      (convAux_no_breaking pkg l hNoBreak SemverBump.none (by decide))
  · exact eq_minor_of_ord _ (blAux_feat_lower pkg l hex' SemverBump.none)
      (blAux_no_breaking pkg l hNoBreak SemverBump.none (by decide))

/-- C3 witness: `fix` commits both before and after the `feat` commit. -/
theorem c3_witness :
    conventional_bump_from_commits "filesystem" [fixCommit, featCommit, fixCommit]
      = SemverBump.minor ∧
    bump_level_main "filesystem" [fixCommit, featCommit, fixCommit] = SemverBump.minor :=
  (c3_feat_precedence "filesystem" [fixCommit, featCommit, fixCommit]
    (by decide) (by decide)).1

/-- C4: for every string the semver pattern accepts, with integer
components `(M, m, p)`: `bump` with `none` returns the input unchanged,
`patch` yields `"M.m.(p+1)"`, `minor` yields `"M.(m+1).0"`, `major` yields
`"(M+1).0.0"`; and `parse_semver` fails on every string the pattern
rejects. -/
theorem c4_bump_arithmetic (v : String) (M m p : Nat)
    (h : parse_semver v = some (M, m, p)) :
    bump_version v SemverBump.none = some v ∧
    bump_version v SemverBump.patch = some (renderVersion M m (p + 1)) ∧
    bump_version v SemverBump.minor = some (renderVersion M (m + 1) 0) ∧
    bump_version v SemverBump.major = some (renderVersion (M + 1) 0 0) ∧
    (∀ w : String, matchesSemverPattern w = false → parse_semver w = none) := by
  refine ⟨?_, ?_, ?_, ?_, ?_⟩
  · simp [bump_version, h]
  · simp [bump_version, h]
  · simp [bump_version, h]
  · simp [bump_version, h]
  · intro w hw
    unfold parse_semver
    unfold matchesSemverPattern at hw
    cases hg : semverGroups w with
    | none => rfl
    | some g => rw [hg] at hw; simp at hw

/-- C4 witness: the arithmetic evaluated at `"1.2.3"`. -/
theorem c4_witness :
    bump_version "1.2.3" SemverBump.none = some "1.2.3" ∧
    bump_version "1.2.3" SemverBump.patch = some (renderVersion 1 2 (3 + 1)) ∧
    bump_version "1.2.3" SemverBump.minor = some (renderVersion 1 (2 + 1) 0) ∧
    bump_version "1.2.3" SemverBump.major = some (renderVersion (1 + 1) 0 0) := by
  obtain ⟨h0, h1, h2, h3, -⟩ := c4_bump_arithmetic "1.2.3" 1 2 3 (by decide)
  exact ⟨h0, h1, h2, h3⟩

/-- C5: the claim as stated is false for the code.  On a descriptor text
with two matching `version` assignment lines, `read_pyproject_version`
(`re.search`) returns the first match instead of failing: more than one
line matches, yet a version is returned. -/
theorem c5_multi_match_counterexample :
    versionMatchCount twoVersionText = 2 ∧
    read_pyproject_version twoVersionText = some "1.0.0" := by
  refine ⟨by decide, by decide⟩

/-- Each line either yields a value for `findSome?` or does not, so
`findSome?` fails exactly when no line matches (the filter is empty). -/
theorem findSome_none_iff_count_zero (f : String → Option String) :
    ∀ ls : List String,
      (ls.findSome? f = none) ↔ (ls.filter (fun l => (f l).isSome)).length = 0 := by
  intro ls
  induction ls with
  | nil => simp
  | cons a rest ih =>
    cases hfa : f a with
    | none => simp only [List.findSome?_cons, List.filter_cons, hfa]; exact ih
    | some v => simp [List.findSome?_cons, List.filter_cons, hfa]

/-- C5 (amended): `read_pyproject_version` fails exactly when no line
matches the single-line version-assignment pattern; with one or more
matching lines it returns a version (the first match) even when the match
is ambiguous.  The exactly-one enforcement lives in
`write_pyproject_version`, which succeeds iff precisely one line matches
(`re.subn` count `!= 1` raises). -/
theorem c5_read_write_singularity (txt newVersion : String) :
    (read_pyproject_version txt = none ↔ versionMatchCount txt = 0) ∧
    ((write_pyproject_version txt newVersion).isSome ↔ versionMatchCount txt = 1) := by
  constructor
  · exact findSome_none_iff_count_zero (assignLineValue "version") (linesOf txt)
  · unfold write_pyproject_version versionMatchCount
    by_cases h : ((linesOf txt).filter (fun l => (assignLineValue "version" l).isSome)).length = 1
    · simp [h]
    · simp [h]

/-- C5 witness: the amended read/write contract evaluated on the
two-assignment text. -/
theorem c5_witness :
    (read_pyproject_version twoVersionText = none ↔ versionMatchCount twoVersionText = 0) ∧
    ((write_pyproject_version twoVersionText "3.0.0").isSome ↔
      versionMatchCount twoVersionText = 1) :=
  c5_read_write_singularity twoVersionText "3.0.0"

/-- Unfolding `mainLoop` one package when its step succeeds. -/
theorem mainLoop_cons_ok (env : MergeEnv) (p : String) (rest : List String)
    (tags created t2 c2 : List String)
    (h : pkgStep env tags created p = Except.ok (t2, c2)) :
    mainLoop env tags created (p :: rest) = mainLoop env t2 c2 rest := by
  simp [mainLoop, h]

/-- Unfolding `mainLoop` one package when its step aborts. -/
theorem mainLoop_cons_err (env : MergeEnv) (p : String) (rest : List String)
    (tags created : List String) (e : String)
    (h : pkgStep env tags created p = Except.error e) :
    mainLoop env tags created (p :: rest) = Except.error (e, created) := by
  simp [mainLoop, h]

/-- A successful package step only adds tags, never removes them. -/
theorem pkgStep_tags_sub (env : MergeEnv) (tags created : List String) (pkg : String)
    (t2 c2 : List String) (h : pkgStep env tags created pkg = Except.ok (t2, c2)) :
    ∀ x ∈ tags, x ∈ t2 := by
  unfold pkgStep at h
  cases hpy : env.pyproject pkg with
  | none =>
    simp only [hpy, Except.ok.injEq, Prod.mk.injEq] at h
    obtain ⟨h1, -⟩ := h
    subst h1
    exact fun x hx => hx
  | some txt =>
    simp only [hpy] at h
    cases hv : read_project_version txt with
    | none => simp [hv] at h
    | some version =>
      simp only [hv] at h
      cases hci : checkInit env pkg version with
      | error e => simp [hci] at h
      | ok u =>
        simp only [hci] at h
        by_cases hc : mergeTagName pkg version ∈ tags
        · simp only [hc, if_true, Except.ok.injEq, Prod.mk.injEq] at h
          obtain ⟨h1, -⟩ := h
          subst h1
          exact fun x hx => hx
        · simp only [hc, if_false, Except.ok.injEq, Prod.mk.injEq] at h
          obtain ⟨h1, -⟩ := h
          subst h1
          exact fun x hx => List.mem_cons_of_mem _ hx

/-- Replaying a successful package step against any tag namespace that
already holds all its output tags is a skip: nothing new is created. -/
theorem pkgStep_replay (env : MergeEnv) (tags created : List String) (pkg : String)
    (t2 c2 : List String) (h : pkgStep env tags created pkg = Except.ok (t2, c2)) :
    ∀ T c0 : List String, (∀ x ∈ t2, x ∈ T) →
      pkgStep env T c0 pkg = Except.ok (T, c0) := by
  intro T c0 hsub
  unfold pkgStep at h ⊢
  cases hpy : env.pyproject pkg with
  | none => simp [hpy]
  | some txt =>
    simp only [hpy] at h ⊢
    cases hv : read_project_version txt with
    | none => simp [hv] at h
    | some version =>
      simp only [hv] at h ⊢
      cases hci : checkInit env pkg version with
      | error e => simp [hci] at h
      | ok u =>
        simp only [hci] at h ⊢
        have htag : mergeTagName pkg version ∈ t2 := by
          by_cases hc : mergeTagName pkg version ∈ tags
          · simp only [hc, if_true, Except.ok.injEq, Prod.mk.injEq] at h
            exact h.1 ▸ hc
          · simp only [hc, if_false, Except.ok.injEq, Prod.mk.injEq] at h
            exact h.1 ▸ List.mem_cons_self _ _
        simp [hsub _ htag]

/-- A successful run of the reconcile loop only adds tags. -/
theorem mainLoop_tags_sub (env : MergeEnv) :
    ∀ (pkgs tags created t' c' : List String),
      mainLoop env tags created pkgs = Except.ok (t', c') → ∀ x ∈ tags, x ∈ t' := by
  intro pkgs
  induction pkgs with
  | nil =>
    intro tags created t' c' h
    simp only [mainLoop, Except.ok.injEq, Prod.mk.injEq] at h
    obtain ⟨h1, -⟩ := h
    subst h1
    exact fun x hx => hx
  | cons p rest ih =>
    intro tags created t' c' h
    cases hstep : pkgStep env tags created p with
    | error e => rw [mainLoop_cons_err env p rest tags created e hstep] at h; cases h
    | ok tc =>
      obtain ⟨t2, c2⟩ := tc
      rw [mainLoop_cons_ok env p rest tags created t2 c2 hstep] at h
      exact fun x hx =>
        ih t2 c2 t' c' h x (pkgStep_tags_sub env tags created p t2 c2 hstep x hx)

/-- Replaying a successful reconcile run from its own final tag namespace
is a no-op: it succeeds, keeps the namespace, and creates nothing. -/
theorem mainLoop_replay (env : MergeEnv) :
    ∀ (pkgs tags created t' c' : List String),
      mainLoop env tags created pkgs = Except.ok (t', c') →
      ∀ c0 : List String, mainLoop env t' c0 pkgs = Except.ok (t', c0) := by
  intro pkgs
  induction pkgs with
  | nil =>
    intro tags created t' c' h c0
    simp [mainLoop]
  | cons p rest ih =>
    intro tags created t' c' h c0
    cases hstep : pkgStep env tags created p with
    | error e => rw [mainLoop_cons_err env p rest tags created e hstep] at h; cases h
    | ok tc =>
      obtain ⟨t2, c2⟩ := tc
      rw [mainLoop_cons_ok env p rest tags created t2 c2 hstep] at h
      have hsub2 : ∀ x ∈ t2, x ∈ t' := mainLoop_tags_sub env rest t2 c2 t' c' h
      have hstep2 : pkgStep env t' c0 p = Except.ok (t', c0) :=
        pkgStep_replay env tags created p t2 c2 hstep t' c0 hsub2
      rw [mainLoop_cons_ok env p rest t' c0 t' c0 hstep2]
      exact ih t2 c2 t' c' h c0

/-- If some package of the list always fails its step, the whole reconcile
loop aborts with an error. -/
theorem mainLoop_error_of_mem (env : MergeEnv) :
    ∀ (pkgs tags created : List String) (pkg : String), pkg ∈ pkgs →
      (∀ t c : List String, ∃ e, pkgStep env t c pkg = Except.error e) →
      ∃ e c, mainLoop env tags created pkgs = Except.error (e, c) := by
  intro pkgs
  induction pkgs with
  | nil => intro tags created pkg hmem _; cases hmem
  | cons p rest ih =>
    intro tags created pkg hmem hfail
    rcases List.mem_cons.mp hmem with rfl | hmem'
    · obtain ⟨e, he⟩ := hfail tags created
      exact ⟨e, created, mainLoop_cons_err env pkg rest tags created e he⟩
    · cases hstep : pkgStep env tags created p with
      | error e => exact ⟨e, created, mainLoop_cons_err env p rest tags created e hstep⟩
      | ok tc =>
        obtain ⟨t2, c2⟩ := tc
        obtain ⟨e, c, hmain⟩ := ih t2 c2 pkg hmem' hfail
        exact ⟨e, c, by
          rw [mainLoop_cons_ok env p rest tags created t2 c2 hstep]; exact hmain⟩

/-- C6: in the reconcile-on-merge pass, a package whose descriptor version
and secondary-file version disagree makes its own step fail with the
version-mismatch error — before the tag branch is ever reached, so no tag
is created for it — and the whole run aborts.  The embedded pass contains
no file-writing operation at all, so neither file can be overwritten. -/
theorem c6_version_mismatch (env : MergeEnv) (tags created pkgs : List String)
    (pkg txt v itxt iv : String)
    (hpy : env.pyproject pkg = some txt) (hv : read_project_version txt = some v)
    (hinit : env.initFile pkg = some itxt) (hiv : read_init_version itxt = some iv)
    (hne : iv ≠ v) (hmem : pkg ∈ pkgs) :
    pkgStep env tags created pkg = Except.error
      ("Version mismatch for " ++ pkg ++ ": pyproject=" ++ v ++ " init=" ++ iv) ∧
    ∃ e c, mainLoop env tags created pkgs = Except.error (e, c) := by
  have hstep : ∀ t c : List String, pkgStep env t c pkg = Except.error
      ("Version mismatch for " ++ pkg ++ ": pyproject=" ++ v ++ " init=" ++ iv) := by
    intro t c
    simp [pkgStep, hpy, hv, checkInit, hinit, hiv, hne]
  exact ⟨hstep tags created,
    mainLoop_error_of_mem env pkgs tags created pkg hmem (fun t c => ⟨_, hstep t c⟩)⟩

/-- C6 witness: descriptor `"1.2.0"` against secondary file `"1.1.9"`. -/
theorem c6_witness :
    pkgStep envMismatch [] [] "filesystem" = Except.error
      ("Version mismatch for " ++ "filesystem" ++ ": pyproject=" ++ "1.2.0"
        ++ " init=" ++ "1.1.9") ∧
    ∃ e c, mainLoop envMismatch [] [] ["filesystem"] = Except.error (e, c) :=
  c6_version_mismatch envMismatch [] [] ["filesystem"] "filesystem"
    "version = \"1.2.0\"" "1.2.0" "__version__ = \"1.1.9\"" "1.1.9"
    (by rfl) (by rfl) (by rfl) (by rfl) (by decide) (by decide)

/-- C7: the claim as stated is false for the code.  `latest_tag_for` wraps
its `git tag --list` query in `except Exception: return None`, so a failing
subprocess yields `None` — exactly the result for an empty tag list — and
the run proceeds treating the package as having no prior release, instead
of aborting. -/
theorem c7_swallowed_failure_counterexample :
    latest_tag_for (Except.error "fatal: not a git repository") = none ∧
    latest_tag_for (Except.ok "") = none := by
  refine ⟨rfl, by decide⟩

/-- C7 (amended): failures of underlying version-control commands propagate
as fatal at call sites that use `run` directly — the diff query behind
`changed_files_since` / `package_changed` re-raises the error unchanged —
but the tag-listing query inside `latest_tag_for` sits under a catch-all
handler, so its subprocess failure produces `None` (no prior release)
rather than aborting the run. -/
theorem c7_propagation_rule (msg pkgName : String) :
    latest_tag_for (Except.error msg) = none ∧
    changed_files_since (Except.error msg) = Except.error msg ∧
    package_changed pkgName (Except.error msg) = Except.error msg :=
  ⟨rfl, rfl, rfl⟩

/-- C8: in the plan phase of `cmd_tag_main`, a package that did change but
whose commits classify as `none` is planned with a forced `patch` bump: the
plan entry exists (the package is not skipped) and its next version
increments exactly the patch component. -/
theorem c8_forced_patch (p : PlanInput) (cur : String) (M m pa : Nat)
    (hch : anyFileUnderPackage p.name p.changedFiles = true)
    (hbump : conventional_bump_from_commits p.name p.commits = SemverBump.none)
    (hread : read_pyproject_version p.pyprojectText = some cur)
    (hparse : parse_semver cur = some (M, m, pa)) :
    planFor p = Except.ok (some (p.name, renderVersion M m (pa + 1))) := by
  simp [planFor, hch, hbump, bump_version, hread, hparse]

/-- C8 witness: a changed package whose only commit matches no rule is
planned at `0.3.0 → 0.3.1`. -/
theorem c8_witness :
    planFor planUnclassified = Except.ok (some ("filesystem", renderVersion 0 3 (0 + 1))) :=
  c8_forced_patch planUnclassified "0.3.0" 0 3 0 (by decide) (by decide) (by rfl) (by decide)

/-- C9: the reconcile-on-merge pass is idempotent for a fixed before/after
pair: if a run succeeds with final tag namespace `tags'`, a second run over
the same diff and files from `tags'` succeeds, keeps the namespace, and
creates no tag — every already-existing derived tag is skipped, not an
error. -/
theorem c9_idempotent (before after diffOut : String) (env : MergeEnv)
    (tags tags' created : List String)
    (h : tag_on_merge_main before after diffOut env tags = Except.ok (tags', created)) :
    tag_on_merge_main before after diffOut env tags' = Except.ok (tags', []) := by
  unfold tag_on_merge_main at h ⊢
  exact mainLoop_replay env _ tags [] tags' created h []

/-- C9 witness: the second run over the same revision pair creates
nothing. -/
theorem c9_witness :
    tag_on_merge_main "shaA" "shaB" "filesystem/pyproject.toml" envConsistent
      ["better-mcps-filesystem-v0.2.1"]
    = Except.ok (["better-mcps-filesystem-v0.2.1"], []) :=
  c9_idempotent "shaA" "shaB" "filesystem/pyproject.toml" envConsistent
    [] ["better-mcps-filesystem-v0.2.1"] ["better-mcps-filesystem-v0.2.1"] (by rfl)

/-- C10: in the reconcile-on-merge pass, a package whose descriptor appears
in the diff but is absent from the working tree is skipped silently: its
step succeeds with the state unchanged (no version read is consulted, no
tag created), and the run simply continues with the remaining packages. -/
theorem c10_missing_descriptor_skip (env : MergeEnv) (tags created : List String)
    (pkg : String) (rest : List String) (h : env.pyproject pkg = none) :
    pkgStep env tags created pkg = Except.ok (tags, created) ∧
    mainLoop env tags created (pkg :: rest) = mainLoop env tags created rest := by
  have h1 : pkgStep env tags created pkg = Except.ok (tags, created) := by
    simp [pkgStep, h]
  exact ⟨h1, mainLoop_cons_ok env pkg rest tags created tags created h1⟩

/-- C10 witness: a diff-listed package with no descriptor on disk. -/
theorem c10_witness :
    pkgStep envEmpty [] [] "ghost" = Except.ok ([], []) ∧
    mainLoop envEmpty [] [] ["ghost"] = mainLoop envEmpty [] [] [] :=
  c10_missing_descriptor_skip envEmpty [] [] "ghost" [] (by rfl)

end BetterMcps
